import Mathlib

/-! # Snapshot take / verify / restore

A shallow embedding of `snapshot/snapshot.go` (package `snapshot`): the functions
`New`, `Snapshot.Index`, `Snapshot.Read`, `Snapshot.Close`, `Verify`,
`concludeGzipRead`, `Read` and `Restore`.

The Go code is effectful: it talks to the temp directory, to `compress/gzip`, to the
Raft engine and to the tar codec of `archive.go`.  The embedding passes the state of the
temp directory explicitly (`World`) and takes everything the code does not decide itself
from an environment (`Env`): what the engine answers, what gzip and the archive codec
compute, and which system calls fail.  The nullable results of Go are `Option`s, so that
"a nil handle together with a non-nil error" can be said as it is in Go.
-/

namespace snapshot

/-! ## Data model -/

/-- An `io.Reader` as its consumer sees it: the bytes it still delivers and the
error that ends it (`none` is a clean `io.EOF`). -/
structure Stream where
  data : List UInt8
  err : Option String
deriving DecidableEq, Repr

/-- The fields of `raft.SnapshotMeta` that the snapshot metadata record carries
(spec section 3).  `Index`, `Term` and `ConfigurationIndex` are `uint64` in Go. -/
structure SnapshotMeta where
  Version : Nat
  Index : Nat
  Term : Nat
  Configuration : List UInt8
  ConfigurationIndex : Nat
deriving DecidableEq, Repr

/-- One temp file: its bytes, the offset of its descriptor, whether the descriptor is
open and whether the directory entry is still there. -/
structure FileState where
  data : List UInt8
  pos : Nat
  isOpen : Bool
  linked : Bool
deriving DecidableEq, Repr

/-- An `*os.File`; `name` is the suffix `os.CreateTemp("", "snapshot")` chose. -/
structure OsFile where
  name : Nat
deriving DecidableEq, Repr

/-- Struct `Snapshot` (snapshot.go 22-25). -/
structure Snapshot where
  file : OsFile
  index : Nat
deriving DecidableEq, Repr

/-- One call of `r.Restore(metadata, snap, 0)` as the engine receives it: the two
pointers, the offset the file stood at, the bytes a reader of the file gets from there,
and the third argument. -/
structure RestoreCall where
  metadata : Option SnapshotMeta
  reader : Option OsFile
  offset : Nat
  bytes : List UInt8
  third : Nat
deriving DecidableEq, Repr

/-- The state the code acts on: the temp directory, the lines given to `logger.Error`
(message and error), and the restore calls the engine has received. -/
structure World where
  files : List (Nat × FileState)
  log : List (String × String)
  restores : List RestoreCall
deriving DecidableEq, Repr

/-! ## Environment -/

/-- The error, if any, that each system call of a run returns (`none`: it goes through). -/
structure Faults where
  createTemp : Option String
  write : Option String
  gzipClose : Option String
  sync : Option String
  seek : Option String
  fileRead : Option String
  fileClose : Option String
  remove : Option String
  decompClose : Option String
deriving DecidableEq, Repr

/-- Every system call goes through. -/
def noFaults : Faults :=
  ⟨none, none, none, none, none, none, none, none, none⟩

/-- Package `compress/gzip`, taken as given: `compress b` is what a `gzip.Writer` has put
into its sink once `Close` returned nil after `b` was written to it, `flushed b` is what
it has put there before `Close`, and `newReader` is `gzip.NewReader` on a non-empty input
(the result is the decompressed stream, with the error that ends it). -/
structure Gzip where
  compress : List UInt8 → List UInt8
  flushed : List UInt8 → List UInt8
  newReader : Stream → Except String Stream

/-- What `write` of archive.go has done when it returns: the bytes it handed to the
compressor, and its error. -/
structure WriteOutcome where
  plain : List UInt8
  err : Option String
deriving DecidableEq, Repr

/-- What `read` of archive.go has done when it returns: the bytes it copied into the
sink, what the decompressor still holds, and the metadata or the error. -/
structure ReadOutcome where
  written : List UInt8
  rest : Stream
  result : Except String SnapshotMeta

/-- The two functions of archive.go that snapshot.go calls, `write(out, metadata, snap)`
and `read(in, metadata, snap)`, taken as given.  The last argument is the error, if
any, with which the sink refuses a write (`io.Discard` never does). -/
structure Archive where
  write : SnapshotMeta → Stream → Option String → WriteOutcome
  read : Stream → Option String → ReadOutcome

/-- The Raft engine as snapshot.go uses it: `r.Snapshot()` with `future.Error()` and
`future.Open()`, the `Close` of the state source, and `r.Restore`, which sees the
metadata pointer, the bytes the reader delivers (`none` for a nil reader) and the third
argument. -/
structure Raft where
  snapshotErr : Option String
  openSnapshot : Except String (SnapshotMeta × Stream)
  snapClose : Option String
  restore : Option SnapshotMeta → Option (List UInt8) → Nat → Option String

/-- Everything a run depends on besides its arguments. -/
structure Env where
  gz : Gzip
  archive : Archive
  raft : Raft
  faults : Faults

/-! ## The temp directory -/

/-- The state of the file called `n`, if there is one. -/
def lookupFile (n : Nat) : List (Nat × FileState) → Option FileState
  | [] => none
  | (m, st) :: rest => if m = n then some st else lookupFile n rest

/-- Change the state of the file called `n`. -/
def updateFile (n : Nat) (g : FileState → FileState) :
    List (Nat × FileState) → List (Nat × FileState)
  | [] => []
  | (m, st) :: rest =>
    if m = n then (m, g st) :: rest else (m, st) :: updateFile n g rest

/-- A name no file of the directory bears. -/
def freshName (fs : List (Nat × FileState)) : Nat :=
  (fs.map Prod.fst).foldr max 0 + 1

/-- Whether the directory has an entry for `n`. -/
def World.fileExists (w : World) (n : Nat) : Bool :=
  match lookupFile n w.files with
  | some st => st.linked
  | none => false

/-- Whether the descriptor of `n` is open. -/
def World.fileOpen (w : World) (n : Nat) : Bool :=
  match lookupFile n w.files with
  | some st => st.isOpen
  | none => false

/-- The offset the descriptor of `n` stands at. -/
def World.filePos (w : World) (n : Nat) : Nat :=
  match lookupFile n w.files with
  | some st => st.pos
  | none => 0

/-- The bytes of the file `n`. -/
def World.fileData (w : World) (n : Nat) : List UInt8 :=
  match lookupFile n w.files with
  | some st => st.data
  | none => []

/-- The bytes a reader of the descriptor of `n` gets, from its offset on. -/
def World.readable (w : World) (n : Nat) : List UInt8 :=
  match lookupFile n w.files with
  | some st => if st.isOpen then st.data.drop st.pos else []
  | none => []

/-- The call `logger.Error(msg, "error", err)`. -/
def World.logError (w : World) (msg err : String) : World :=
  { w with log := w.log ++ [(msg, err)] }

/-- The statement `if err != nil { logger.Error(msg, "error", err) }`. -/
def World.logIf (w : World) (msg : String) (err : Option String) : World :=
  match err with
  | some e => w.logError msg e
  | none => w

/-- The call `os.CreateTemp("", "snapshot")`: a new empty file under an unused name, open at
offset zero. -/
def osCreateTemp (fault : Option String) (w : World) : Except String OsFile × World :=
  match fault with
  | some e => (.error e, w)
  | none =>
    let n := freshName w.files
    (.ok ⟨n⟩, { w with files := (n, ⟨[], 0, true, true⟩) :: w.files })

/-- The file holds `bytes` after the writes of a step, the offset behind them. -/
def fileStore (f : OsFile) (bytes : List UInt8) (w : World) : World :=
  { w with files := updateFile f.name (fun st => { st with data := bytes, pos := bytes.length }) w.files }

/-- The call `f.Sync()`. -/
def fileSync (fault : Option String) (f : OsFile) (w : World) : Option String :=
  match fault with
  | some e => some e
  | none => if w.fileOpen f.name then none else some "file already closed"

/-- The call `f.Seek(0, 0)`. -/
def fileSeekStart (fault : Option String) (f : OsFile) (w : World) : Option String × World :=
  match fault with
  | some e => (some e, w)
  | none =>
    if w.fileOpen f.name then
      (none, { w with files := updateFile f.name (fun st => { st with pos := 0 }) w.files })
    else (some "file already closed", w)

/-- The call `f.Close()`: the descriptor is released also when the call reports an error. -/
def fileClose (fault : Option String) (f : OsFile) (w : World) : Option String × World :=
  if w.fileOpen f.name then
    (fault, { w with files := updateFile f.name (fun st => { st with isOpen := false }) w.files })
  else (some "file already closed", w)

/-- The call `os.Remove(f.Name())`. -/
def osRemove (fault : Option String) (f : OsFile) (w : World) : Option String × World :=
  match fault with
  | some e => (some e, w)
  | none =>
    if w.fileExists f.name then
      (none, { w with files := updateFile f.name (fun st => { st with linked := false }) w.files })
    else (some "no such file or directory", w)

/-- The call `f.Read(p)`: the count, the error and the buffer afterwards. -/
def fileRead (fault : Option String) (f : OsFile) (p : List UInt8) (w : World) :
    (Nat × Option String × List UInt8) × World :=
  match fault with
  | some e => ((0, some e, p), w)
  | none =>
    if w.fileOpen f.name then
      if p.length = 0 then ((0, none, p), w)
      else
        let avail := w.readable f.name
        if avail.length = 0 then ((0, some "EOF", p), w)
        else
          let n := min p.length avail.length
          ((n, none, avail.take n ++ p.drop n),
            { w with files := updateFile f.name (fun st => { st with pos := st.pos + n }) w.files })
    else ((0, some "file already closed", p), w)

/-! ## snapshot.go -/

/-- The call `gzip.NewReader(in)`: on an input that ends before its first byte the header read
returns the end of the input (`io.EOF` when it is a clean end); otherwise the library
decides. -/
def gzipNewReader (gz : Gzip) (inp : Stream) : Except String Stream :=
  match inp.data, inp.err with
  | [], none => .error "EOF"
  | [], some e => .error e
  | _ :: _, _ => gz.newReader inp

/-- Lines 70-93 of `New`: from the compressor to the returned handle.  The third component
is the variable `keep` at the return. -/
def New.fill (env : Env) (metadata : SnapshotMeta) (snap : Stream) (archive : OsFile)
    (w : World) : (Option Snapshot × Option String × Bool) × World :=
  -- compressor := gzip.NewWriter(archive); write(compressor, metadata, snap)
  let out := env.archive.write metadata snap env.faults.write
  let w1 := fileStore archive (env.gz.flushed out.plain) w
  match out.err with
  | some e => ((none, some ("failed to write snapshot file: " ++ e), false), w1)
  | none =>
    -- compressor.Close()
    match env.faults.gzipClose with
    | some e => ((none, some ("failed to compress snapshot file: " ++ e), false), w1)
    | none =>
      let w2 := fileStore archive (env.gz.compress out.plain) w1
      -- archive.Sync()
      match fileSync env.faults.sync archive w2 with
      | some e => ((none, some ("failed to sync snapshot: " ++ e), false), w2)
      | none =>
        -- archive.Seek(0, 0)
        match fileSeekStart env.faults.seek archive w2 with
        | (some e, w3) => ((none, some ("failed to rewind snapshot: " ++ e), false), w3)
        | (none, w3) =>
          -- keep = true
          ((some ⟨archive, metadata.Index⟩, none, true), w3)

/-- Lines 49-93 of `New`: the scratch file, the deferred removal, and the body. -/
def New.scratch (env : Env) (metadata : SnapshotMeta) (snap : Stream) (w : World) :
    (Option Snapshot × Option String) × World :=
  match osCreateTemp env.faults.createTemp w with
  | (.error e, w1) => ((none, some ("failed to create snapshot file: " ++ e)), w1)
  | (.ok archive, w1) =>
    match New.fill env metadata snap archive w1 with
    | ((s, err, keep), w2) =>
      -- deferred (lines 60-68)
      if keep then ((s, err), w2)
      else
        let r := osRemove env.faults.remove archive w2
        ((s, err), r.2.logIf "Failed to clean up temp snapshot" r.1)

/-- Function `New(logger, r)` (snapshot.go 31-94). -/
def New (env : Env) (w : World) : (Option Snapshot × Option String) × World :=
  -- future := r.Snapshot(); future.Error()
  match env.raft.snapshotErr with
  | some e => ((none, some ("Raft error when taking snapshot: " ++ e)), w)
  | none =>
    -- future.Open()
    match env.raft.openSnapshot with
    | .error e => ((none, some ("failed to open snapshot: " ++ e ++ ":")), w)
    | .ok (metadata, snap) =>
      match New.scratch env metadata snap w with
      | (res, w1) =>
        -- deferred (lines 43-47): snap.Close()
        (res, w1.logIf "Failed to close Raft snapshot" env.raft.snapClose)

/-- Method `(s *Snapshot) Index()` (snapshot.go 98-103). -/
def Snapshot.Index (s : Option Snapshot) : Nat :=
  match s with
  | none => 0
  | some s => s.index

/-- Method `(s *Snapshot) Read(p)` (snapshot.go 107-112): the count, the error and the buffer
afterwards. -/
def Snapshot.Read (s : Option Snapshot) (faults : Faults) (p : List UInt8) (w : World) :
    (Nat × Option String × List UInt8) × World :=
  match s with
  | none => ((0, some "EOF", p), w)
  | some s => fileRead faults.fileRead s.file p w

/-- Method `(s *Snapshot) Close()` (snapshot.go 117-126). -/
def Snapshot.Close (s : Option Snapshot) (faults : Faults) (w : World) : Option String × World :=
  match s with
  | none => (none, w)
  | some s =>
    match fileClose faults.fileClose s.file w with
    | (some e, w1) => (some e, w1)
    | (none, w1) => osRemove faults.remove s.file w1

/-- Function `concludeGzipRead(decomp)` (snapshot.go 155-163).  `io.ReadAll` returns the bytes
still to come and the error that ends them, nil for the end of the data. -/
def concludeGzipRead (decomp : Stream) : Option String :=
  let extra := decomp.data
  match decomp.err with
  | some e => some e
  | none =>
    if extra.length ≠ 0 then
      some (Nat.repr extra.length ++ " unread uncompressed bytes remain")
    else none

/-- Function `Verify(in)` (snapshot.go 129-148). -/
def Verify (env : Env) (inp : Stream) : Option SnapshotMeta × Option String :=
  match gzipNewReader env.gz inp with
  | .error e => (none, some ("failed to decompress snapshot: " ++ e))
  | .ok decomp =>
    -- read(decomp, &metadata, io.Discard)
    let out := env.archive.read decomp none
    match out.result with
    | .error e => (none, some ("failed to read snapshot file: " ++ e))
    | .ok metadata =>
      match concludeGzipRead out.rest with
      | some e => (none, some e)
      | none => (some metadata, none)

/-- Lines 178-202 of `Read`: from the scratch file to the return. -/
def Read.fill (env : Env) (decomp : Stream) (w : World) :
    (Option OsFile × Option SnapshotMeta × Option String) × World :=
  match osCreateTemp env.faults.createTemp w with
  | (.error e, w1) => ((none, none, some ("failed to create temp snapshot file: " ++ e)), w1)
  | (.ok snap, w1) =>
    -- read(decomp, &metadata, snap)
    let out := env.archive.read decomp env.faults.write
    let w2 := fileStore snap out.written w1
    match out.result with
    | .error e => ((none, none, some ("failed to read snapshot file: " ++ e)), w2)
    | .ok metadata =>
      match concludeGzipRead out.rest with
      | some e => ((none, none, some e), w2)
      | none =>
        -- snap.Sync()
        match fileSync env.faults.sync snap w2 with
        | some e => ((none, none, some ("failed to sync temp snapshot: " ++ e)), w2)
        | none =>
          -- snap.Seek(0, 0)
          match fileSeekStart env.faults.seek snap w2 with
          | (some e, w3) => ((none, none, some ("failed to rewind temp snapshot: " ++ e)), w3)
          | (none, w3) => ((some snap, some metadata, none), w3)

/-- Function `Read(logger, in)` (snapshot.go 166-203). -/
def Read (env : Env) (inp : Stream) (w : World) :
    (Option OsFile × Option SnapshotMeta × Option String) × World :=
  match gzipNewReader env.gz inp with
  | .error e => ((none, none, some ("failed to decompress snapshot: " ++ e)), w)
  | .ok decomp =>
    match Read.fill env decomp w with
    | (res, w1) =>
      -- deferred (lines 172-176): decomp.Close()
      (res, w1.logIf "Failed to close snapshot decompressor" env.faults.decompClose)

/-- The deferred function of `Restore` (snapshot.go 209-219). -/
def Restore.cleanup (env : Env) (snap : Option OsFile) (w : World) : World :=
  match snap with
  | none => w
  | some f =>
    let c := fileClose env.faults.fileClose f w
    let w1 := c.2.logIf "Failed to close temp snapshot" c.1
    let r := osRemove env.faults.remove f w1
    r.2.logIf "Failed to clean up temp snapshot" r.1

/-- The call `r.Restore(metadata, snap, third)` as the engine receives it. -/
def raftRestore (env : Env) (metadata : Option SnapshotMeta) (snap : Option OsFile)
    (third : Nat) (w : World) : Option String × World :=
  let pos := match snap with
    | some f => w.filePos f.name
    | none => 0
  let bytes := match snap with
    | some f => w.readable f.name
    | none => []
  (env.raft.restore metadata (snap.map fun _ => bytes) third,
    { w with restores := w.restores ++ [⟨metadata, snap, pos, bytes, third⟩] })

/-- Function `Restore(logger, in, r)` (snapshot.go 207-230). -/
def Restore (env : Env) (inp : Stream) (w : World) : Option String × World :=
  match Read env inp w with
  | ((snap, metadata, err), w1) =>
    let body : Option String × World :=
      match err with
      | some e => (some e, w1)
      | none =>
        -- r.Restore(metadata, snap, 0)
        match raftRestore env metadata snap 0 w1 with
        | (some e, w2) => (some ("Raft error when restoring snapshot: " ++ e), w2)
        | (none, w2) => (none, w2)
    (body.1, Restore.cleanup env snap body.2)

/-- The caller of a handle streaming it out: `Read` into a buffer of `bufLen` bytes until
it reports the end of the data or an error (`io.EOF` ends the loop without error). -/
def Snapshot.stream (s : Option Snapshot) (bufLen : Nat) :
    Nat → World → List UInt8 × Option String × World
  | 0, w => ([], some "out of fuel", w)
  | fuel + 1, w =>
    match Snapshot.Read s noFaults (List.replicate bufLen 0) w with
    | ((n, none, p), w1) =>
      let r := Snapshot.stream s bufLen fuel w1
      (p.take n ++ r.1, r.2.1, r.2.2)
    | ((n, some e, p), w1) => (p.take n, if e = "EOF" then none else some e, w1)

/-! ## The archive codec of the specification -/

/-- The eight little-endian bytes of a `uint64`. -/
def u64le (n : Nat) : List UInt8 :=
  (List.range 8).map fun i => UInt8.ofNat (n / 256 ^ i)

/-- The number a little-endian byte sequence stands for. -/
def leValue : List UInt8 → Nat
  | [] => 0
  | b :: rest => b.toNat + 256 * leValue rest

/-- Modelled from the spec: the serialized metadata record of archive.go, which is not
among the sources.  Spec section 6 gives its content (index, term, configuration index,
an opaque configuration blob, a format version) and leaves the layout open (section 9);
here the three counters are eight bytes each, the version one byte, and the blob is
the remainder of the member. -/
def encodeMeta (m : SnapshotMeta) : List UInt8 :=
  u64le m.Index ++ (u64le m.Term ++ (u64le m.ConfigurationIndex ++
    (UInt8.ofNat m.Version :: m.Configuration)))

/-- Modelled from the spec: parsing the metadata record of archive.go back (section 4.1:
it fails when the bytes do not parse as valid metadata; section 3: the version must be
one the codec recognizes, `known`). -/
def decodeMeta (known : Nat → Bool) (bs : List UInt8) : Option SnapshotMeta :=
  if bs.length < 25 then none
  else
    let version := ((bs.drop 24).headD 0).toNat
    if known version then
      some {
        Version := version
        Index := leValue (bs.take 8)
        Term := leValue ((bs.drop 8).take 8)
        Configuration := bs.drop 25
        ConfigurationIndex := leValue ((bs.drop 16).take 8) }
    else none

/-- Modelled from the spec: `write` of archive.go (section 4.1, encode): member 1 is the
metadata record behind its length, member 2 is every byte of the state source, verbatim;
it fails when the sink rejects a write or the state source errors. -/
def specWrite (m : SnapshotMeta) (src : Stream) (sinkFault : Option String) : WriteOutcome :=
  let member1 := u64le (encodeMeta m).length ++ encodeMeta m
  match sinkFault with
  | some e => ⟨[], some e⟩
  | none =>
    match src.err with
    | some e => ⟨member1 ++ src.data, some e⟩
    | none => ⟨member1 ++ src.data, none⟩

/-- Modelled from the spec: `read` of archive.go (section 4.1, decode): it reads member 1
and parses it, then copies the bytes of member 2 to the sink until the input is
exhausted (section 6: the state member ends where the compressed stream ends); it fails
when the container ends inside member 1, when member 1 does not parse, when the sink
rejects a write, or when the input errors. -/
def specRead (known : Nat → Bool) (d : Stream) (sinkFault : Option String) : ReadOutcome :=
  if d.data.length < 8 then ⟨[], ⟨[], d.err⟩, .error "unexpected EOF"⟩
  else
    let len := leValue (d.data.take 8)
    let body := d.data.drop 8
    if body.length < len then ⟨[], ⟨[], d.err⟩, .error "unexpected EOF"⟩
    else
      match decodeMeta known (body.take len) with
      | none => ⟨[], ⟨body.drop len, d.err⟩, .error "invalid snapshot metadata"⟩
      | some m =>
        match sinkFault with
        | some e => ⟨[], ⟨body.drop len, d.err⟩, .error e⟩
        | none =>
          match d.err with
          | some e => ⟨body.drop len, ⟨[], none⟩, .error e⟩
          | none => ⟨body.drop len, ⟨[], none⟩, .ok m⟩

/-- Modelled from the spec: archive.go as sections 4.1 and 6 describe it. -/
def specArchive (known : Nat → Bool) : Archive :=
  ⟨specWrite, specRead known⟩

/-- Metadata as the data model has it (spec section 3): the three counters are `uint64`,
the version is a small integer the codec recognizes, and the blob has a length. -/
def SnapshotMeta.valid (known : Nat → Bool) (m : SnapshotMeta) : Prop :=
  m.Index < 2 ^ 64 ∧ m.Term < 2 ^ 64 ∧ m.ConfigurationIndex < 2 ^ 64 ∧
    m.Version < 256 ∧ known m.Version = true ∧ m.Configuration.length + 25 < 2 ^ 64

/-- The law of `compress/gzip` that a round trip rests on: a reader over what a writer
produced delivers the bytes written, and then the end of the data. -/
def Gzip.lawful (gz : Gzip) : Prop :=
  ∀ b : List UInt8, gzipNewReader gz ⟨gz.compress b, none⟩ = .ok ⟨b, none⟩

/-! ## Predicates of the statements -/

/-- One of the steps of `New` behind the creation of the scratch file fails: writing the
archive through the compressor, closing the compressor, syncing, or rewinding. -/
def New.laterFailure (env : Env) (metadata : SnapshotMeta) (snap : Stream) : Bool :=
  (env.archive.write metadata snap env.faults.write).err.isSome || env.faults.gzipClose.isSome
    || env.faults.sync.isSome || env.faults.seek.isSome

/-! ## Concrete environments -/

/-- A stand-in for `compress/gzip` in concrete runs: the two magic bytes of a gzip header,
then the bytes as they are. -/
def storedGzip : Gzip where
  compress := fun b => 0x1f :: 0x8b :: b
  flushed := fun _ => [0x1f, 0x8b]
  newReader := fun inp =>
    match inp.data with
    | 0x1f :: 0x8b :: rest => .ok ⟨rest, inp.err⟩
    | _ => .error "gzip: invalid header"

/-- A codec for concrete runs whose container is one byte long: `read` takes the first
byte as the index and leaves the others in the decompressor. -/
def oneByteArchive : Archive where
  write := fun m _ _ => ⟨[UInt8.ofNat m.Index], none⟩
  read := fun d _ =>
    match d.data with
    | [] => ⟨[], d, .error "unexpected EOF"⟩
    | b :: rest => ⟨[], ⟨rest, d.err⟩, .ok ⟨0, b.toNat, 0, [], 0⟩⟩

/-- The metadata of the example runs: index 100, term 3. -/
def sampleMeta : SnapshotMeta :=
  ⟨1, 100, 3, [7], 42⟩

/-- An engine whose capture yields `m` and the state bytes `s` and whose restore answers
`restoreErr`. -/
def sampleRaft (m : SnapshotMeta) (s : List UInt8) (restoreErr : Option String) : Raft :=
  ⟨none, .ok (m, ⟨s, none⟩), none, fun _ _ _ => restoreErr⟩

/-- The environment of the example runs. -/
def sampleEnv (faults : Faults) (restoreErr : Option String) : Env :=
  ⟨storedGzip, specArchive (fun v => decide (v ≤ 1)), sampleRaft sampleMeta [10, 20, 30] restoreErr,
    faults⟩

/-- An empty temp directory. -/
def emptyWorld : World :=
  ⟨[], [], []⟩

/-- The example environment with a codec that leaves bytes in the decompressor. -/
def residueEnv : Env :=
  ⟨storedGzip, oneByteArchive, sampleRaft sampleMeta [10, 20, 30] none, noFaults⟩

/-- Faults of an example run: the sync fails, and so does the removal. -/
def syncAndRemoveFail : Faults :=
  { noFaults with sync := some "input/output error", remove := some "operation not permitted" }

/-- Faults of an example run: the sync fails. -/
def syncFails : Faults :=
  { noFaults with sync := some "input/output error" }

/-- Faults of an example run: the removal fails. -/
def removeFails : Faults :=
  { noFaults with remove := some "operation not permitted" }

/-- An input that is a gzip stream of three bytes, which are no archive. -/
def notAnArchive : Stream :=
  ⟨[0x1f, 0x8b, 1, 2, 3], none⟩

/-- The bytes `New` leaves in its scratch file in the example runs. -/
def sampleArchiveBytes : List UInt8 :=
  (New (sampleEnv noFaults none) emptyWorld).2.fileData 1

end snapshot

namespace snapshot

/-! ## Facts about the temp directory -/

theorem lookupFile_of_lt (n : Nat) (fs : List (Nat × FileState))
    (h : (fs.map Prod.fst).foldr max 0 < n) : lookupFile n fs = none := by
  induction fs with
  | nil => rfl
  | cons p rest ih =>
    obtain ⟨m, st⟩ := p
    simp only [List.map_cons, List.foldr_cons] at h
    have hm : m ≠ n := by omega
    have hr : (rest.map Prod.fst).foldr max 0 < n := by omega
    simp [lookupFile, hm, ih hr]

theorem lookupFile_freshName (fs : List (Nat × FileState)) :
    lookupFile (freshName fs) fs = none :=
  lookupFile_of_lt _ _ (by unfold freshName; omega)

theorem lookupFile_updateFile (n : Nat) (g : FileState → FileState)
    (fs : List (Nat × FileState)) :
    lookupFile n (updateFile n g fs) = (lookupFile n fs).map g := by
  induction fs with
  | nil => rfl
  | cons p rest ih =>
    obtain ⟨m, st⟩ := p
    by_cases hm : m = n
    · simp [lookupFile, updateFile, hm]
    · simp [lookupFile, updateFile, hm, ih]

theorem lookupFile_updateFile_ne (m n : Nat) (g : FileState → FileState)
    (fs : List (Nat × FileState)) (h : m ≠ n) :
    lookupFile m (updateFile n g fs) = lookupFile m fs := by
  induction fs with
  | nil => rfl
  | cons p rest ih =>
    obtain ⟨k, st⟩ := p
    by_cases hk : k = n
    · subst hk
      have hkm : k ≠ m := fun h1 => h h1.symm
      simp [lookupFile, updateFile, hkm]
    · by_cases hkm : k = m
      · subst hkm
        simp [lookupFile, updateFile, hk]
      · simp [lookupFile, updateFile, hk, hkm, ih]

@[simp] theorem logIf_files (w : World) (msg : String) (err : Option String) :
    (w.logIf msg err).files = w.files := by
  cases err <;> rfl

@[simp] theorem logIf_restores (w : World) (msg : String) (err : Option String) :
    (w.logIf msg err).restores = w.restores := by
  cases err <;> rfl

@[simp] theorem logIf_fileExists (w : World) (msg : String) (err : Option String) (n : Nat) :
    (w.logIf msg err).fileExists n = w.fileExists n := by
  simp [World.fileExists]

@[simp] theorem logIf_fileOpen (w : World) (msg : String) (err : Option String) (n : Nat) :
    (w.logIf msg err).fileOpen n = w.fileOpen n := by
  simp [World.fileOpen]

theorem mem_logIf (w : World) (msg e : String) :
    (msg, e) ∈ (w.logIf msg (some e)).log := by
  simp [World.logIf, World.logError]

/-- After an `os.Remove` that went through, the directory has no entry for the file. -/
theorem osRemove_ok_gone (fault : Option String) (f : OsFile) (w : World)
    (h : (osRemove fault f w).1 = none) : (osRemove fault f w).2.fileExists f.name = false := by
  unfold osRemove at h ⊢
  cases fault with
  | some e => simp at h
  | none =>
    by_cases hx : w.fileExists f.name = true
    · simp only [hx, if_true]
      simp only [World.fileExists, lookupFile_updateFile]
      cases lookupFile f.name w.files <;> simp
    · simp [hx] at h

/-- An `os.Remove` that fails leaves the directory as it is. -/
theorem osRemove_err_same (fault : Option String) (f : OsFile) (w : World) (e : String)
    (h : (osRemove fault f w).1 = some e) : (osRemove fault f w).2 = w := by
  unfold osRemove at h ⊢
  cases fault with
  | some e => rfl
  | none =>
    by_cases hx : w.fileExists f.name = true
    · simp [hx] at h
    · simp [hx]

/-! ## The take path -/

/-- C1 (as amended).  In a run of `New` that has created its scratch file: when a later
step fails (write, compressor close, sync or rewind), `New` returns a nil handle and a
non-nil error and has called `os.Remove` on the scratch file, so the file is gone when
that call went through, and is still there, with the failure logged, when it did not;
when every step succeeds `New` returns the handle of the scratch file with a nil error
and the file is there. -/
theorem New_cleans_up_scratch (env : Env) (w : World) (metadata : SnapshotMeta) (snap : Stream)
    (hs : env.raft.snapshotErr = none) (ho : env.raft.openSnapshot = .ok (metadata, snap))
    (hc : env.faults.createTemp = none) :
    (New.laterFailure env metadata snap = true →
      (New env w).1.1 = none ∧ (New env w).1.2 ≠ none ∧
      (env.faults.remove = none → (New env w).2.fileExists (freshName w.files) = false) ∧
      (∀ e, env.faults.remove = some e →
        (New env w).2.fileExists (freshName w.files) = true ∧
        ("Failed to clean up temp snapshot", e) ∈ (New env w).2.log)) ∧
    (New.laterFailure env metadata snap = false →
      (New env w).1 = (some ⟨⟨freshName w.files⟩, metadata.Index⟩, none) ∧
      (New env w).2.fileExists (freshName w.files) = true) := by
  unfold New.laterFailure
  simp only [New, hs, ho, New.scratch, osCreateTemp, hc, New.fill, fileStore, fileSync,
    fileSeekStart, osRemove, World.fileOpen, World.fileExists, World.logIf, World.logError,
    lookupFile, updateFile, if_true]
  cases hw : (env.archive.write metadata snap env.faults.write).err <;>
  cases hg : env.faults.gzipClose <;>
  cases hy : env.faults.sync <;>
  cases hk : env.faults.seek <;>
  cases hr : env.faults.remove <;>
  cases hl : env.raft.snapClose <;>
  simp [lookupFile, updateFile]

/-! ## The read path -/

/-- What a successful `Read` has done. -/
theorem Read_ok_inv (env : Env) (inp : Stream) (w w1 : World) (f : Option OsFile)
    (m : Option SnapshotMeta) (h : Read env inp w = ((f, m, none), w1)) :
    ∃ decomp meta,
      gzipNewReader env.gz inp = .ok decomp ∧
      (env.archive.read decomp env.faults.write).result = .ok meta ∧
      concludeGzipRead (env.archive.read decomp env.faults.write).rest = none ∧
      env.faults.createTemp = none ∧ env.faults.sync = none ∧ env.faults.seek = none ∧
      f = some ⟨freshName w.files⟩ ∧ m = some meta ∧
      w1.files = (freshName w.files,
        ⟨(env.archive.read decomp env.faults.write).written, 0, true, true⟩) :: w.files ∧
      w1.restores = w.restores := by
  unfold Read at h
  cases hz : gzipNewReader env.gz inp with
  | error e => simp [hz] at h
  | ok decomp =>
    refine ⟨decomp, ?_⟩
    simp only [hz, Read.fill, osCreateTemp, fileStore, fileSync, fileSeekStart, World.fileOpen,
      lookupFile, updateFile, if_true] at h
    cases hc : env.faults.createTemp <;>
    cases hr : (env.archive.read decomp env.faults.write).result <;>
    cases hg : concludeGzipRead (env.archive.read decomp env.faults.write).rest <;>
    cases hy : env.faults.sync <;>
    cases hk : env.faults.seek <;>
    cases hd : env.faults.decompClose <;>
    simp [hc, hr, hg, hy, hk, hd, lookupFile, updateFile, World.logIf, World.logError] at h ⊢ <;>
    (obtain ⟨⟨h1, h2⟩, h3⟩ := h; subst h3; simp [h1, h2])

/-- A `Read` returns either a file and metadata with a nil error, or an error alone. -/
theorem Read_shape (env : Env) (inp : Stream) (w : World) :
    (∃ f m, (Read env inp w).1 = (some f, some m, none)) ∨
    (∃ e, (Read env inp w).1 = (none, none, some e)) := by
  unfold Read
  cases hz : gzipNewReader env.gz inp with
  | error e => simp
  | ok decomp =>
    simp only [Read.fill, osCreateTemp, fileStore, fileSync, fileSeekStart, World.fileOpen,
      lookupFile, updateFile, if_true]
    cases hc : env.faults.createTemp <;>
    cases hr : (env.archive.read decomp env.faults.write).result <;>
    cases hg : concludeGzipRead (env.archive.read decomp env.faults.write).rest <;>
    cases hy : env.faults.sync <;>
    cases hk : env.faults.seek <;>
    cases hd : env.faults.decompClose <;>
    simp [lookupFile, updateFile]

/-- A `Read` does not call the engine. -/
theorem Read_restores (env : Env) (inp : Stream) (w : World) :
    (Read env inp w).2.restores = w.restores := by
  unfold Read
  cases hz : gzipNewReader env.gz inp with
  | error e => simp
  | ok decomp =>
    simp only [Read.fill, osCreateTemp, fileStore, fileSync, fileSeekStart, World.fileOpen,
      lookupFile, updateFile, if_true]
    cases hc : env.faults.createTemp <;>
    cases hr : (env.archive.read decomp env.faults.write).result <;>
    cases hg : concludeGzipRead (env.archive.read decomp env.faults.write).rest <;>
    cases hy : env.faults.sync <;>
    cases hk : env.faults.seek <;>
    cases hd : env.faults.decompClose <;>
    simp [lookupFile, updateFile, World.logIf, World.logError]

/-! ## The restore path -/

theorem osRemove_restores (fault : Option String) (f : OsFile) (w : World) :
    (osRemove fault f w).2.restores = w.restores := by
  unfold osRemove
  cases fault with
  | some e => rfl
  | none => by_cases hx : w.fileExists f.name = true <;> simp [hx]

theorem fileClose_restores (fault : Option String) (f : OsFile) (w : World) :
    (fileClose fault f w).2.restores = w.restores := by
  unfold fileClose
  by_cases hx : w.fileOpen f.name = true <;> simp [hx]

/-- The deferred function of `Restore` does not call the engine. -/
theorem cleanup_restores (env : Env) (snap : Option OsFile) (w : World) :
    (Restore.cleanup env snap w).restores = w.restores := by
  cases snap with
  | none => rfl
  | some f =>
    simp only [Restore.cleanup, logIf_restores, osRemove_restores, fileClose_restores]

/-- What `Restore` does after a `Read` that failed: the error is passed on, nothing else happens. -/
theorem Restore_of_Read_err (env : Env) (inp : Stream) (w : World) (e : String)
    (h : (Read env inp w).1 = (none, none, some e)) :
    Restore env inp w = (some e, (Read env inp w).2) := by
  unfold Restore
  generalize Read env inp w = r at h
  obtain ⟨⟨f, m, err⟩, w1⟩ := r
  simp only [Prod.mk.injEq] at h
  obtain ⟨h1, h2, h3⟩ := h
  subst h1 h2 h3
  rfl

/-- What `Restore` does after a `Read` that succeeded: one call of the engine, then the cleanup. -/
theorem Restore_of_Read_ok (env : Env) (inp : Stream) (w w1 : World) (f : OsFile)
    (m : SnapshotMeta) (h : Read env inp w = ((some f, some m, none), w1)) :
    Restore env inp w =
      ((env.raft.restore (some m) (some (w1.readable f.name)) 0).map
          (fun e => "Raft error when restoring snapshot: " ++ e),
        Restore.cleanup env (some f)
          { w1 with restores := w1.restores ++
              [⟨some m, some f, w1.filePos f.name, w1.readable f.name, 0⟩] }) := by
  unfold Restore
  rw [h]
  simp only [raftRestore, Option.map_some']
  cases env.raft.restore (some m) (some (w1.readable f.name)) 0 <;> rfl

/-- C3 (as amended).  In a run of `Restore` whose input was decoded into a scratch file,
`Restore` returns nil when the engine restores and the wrapped error of the engine when it
does not, and before it returns it has closed the scratch file and called `os.Remove` on
it: the file is gone when that call went through, and is still there, with the failure
logged, when it did not.  What the close and the removal answer does not change the
value `Restore` returns. -/
theorem Restore_closes_and_removes (env : Env) (inp : Stream) (w w1 : World) (f : OsFile)
    (m : SnapshotMeta) (h : Read env inp w = ((some f, some m, none), w1)) :
    (Restore env inp w).1 =
      (env.raft.restore (some m) (some (w1.readable f.name)) 0).map
        (fun e => "Raft error when restoring snapshot: " ++ e) ∧
    (Restore env inp w).2.fileOpen f.name = false ∧
    (env.faults.remove = none → (Restore env inp w).2.fileExists f.name = false) ∧
    (∀ e, env.faults.remove = some e →
      (Restore env inp w).2.fileExists f.name = true ∧
      ("Failed to clean up temp snapshot", e) ∈ (Restore env inp w).2.log) ∧
    (∀ a b, (Restore ⟨env.gz, env.archive, env.raft,
        { env.faults with fileClose := a, remove := b }⟩ inp w).1 = (Restore env inp w).1) := by
  obtain ⟨decomp, meta, -, -, -, -, -, -, hf, -, hfiles, -⟩ := Read_ok_inv env inp w w1 _ _ h
  simp only [Option.some.injEq] at hf
  subst hf
  have hind : ∀ a b, (Restore ⟨env.gz, env.archive, env.raft,
      { env.faults with fileClose := a, remove := b }⟩ inp w).1 = (Restore env inp w).1 :=
    fun _ _ => rfl
  refine ⟨?_, ?_, ?_, ?_, hind⟩ <;> rw [Restore_of_Read_ok env inp w w1 _ m h]
  · simp [Restore.cleanup, fileClose, osRemove, World.fileOpen, World.fileExists, hfiles,
      lookupFile, updateFile]
    cases env.faults.remove <;> simp [lookupFile, updateFile]
  · intro hr
    simp [Restore.cleanup, fileClose, osRemove, World.fileOpen, World.fileExists, hfiles,
      lookupFile, updateFile, hr]
  · intro e hr
    cases hx : env.faults.fileClose <;>
    simp [Restore.cleanup, fileClose, osRemove, World.fileOpen, World.fileExists, hfiles,
      lookupFile, updateFile, hr, hx, World.logIf, World.logError]

/-- C9.  `Restore` calls the restore of the engine once when `Read` returned a nil error,
with the metadata `read` decoded, the scratch file standing at offset zero with every byte
`read` put into it ahead, and 0 as third argument; it does not call it when `Read`
returned an error. -/
theorem Restore_engine_calls (env : Env) (inp : Stream) (w : World) :
    ((Read env inp w).1.2.2 = none →
      ∃ decomp meta,
        gzipNewReader env.gz inp = .ok decomp ∧
        (env.archive.read decomp env.faults.write).result = .ok meta ∧
        (Restore env inp w).2.restores = w.restores ++
          [⟨some meta, some ⟨freshName w.files⟩, 0,
            (env.archive.read decomp env.faults.write).written, 0⟩]) ∧
    (∀ e, (Read env inp w).1.2.2 = some e →
      (Restore env inp w).2.restores = w.restores) := by
  constructor
  · intro hn
    have h : Read env inp w =
        (((Read env inp w).1.1, (Read env inp w).1.2.1, none), (Read env inp w).2) := by
      rw [← hn]
    obtain ⟨decomp, meta, hz, hr, -, -, -, -, hf, hm, hfiles, hres⟩ :=
      Read_ok_inv env inp w _ _ _ h
    refine ⟨decomp, meta, hz, hr, ?_⟩
    rw [hf, hm] at h
    rw [Restore_of_Read_ok env inp w _ _ _ h, cleanup_restores]
    simp [hres, World.filePos, World.readable, hfiles, lookupFile]
  · intro e he
    rcases Read_shape env inp w with ⟨f, m, hs⟩ | ⟨e2, hs⟩
    · rw [hs] at he
      simp at he
    · rw [Restore_of_Read_err env inp w e2 hs]
      exact Read_restores env inp w

/-! ## Residue -/

/-- The check `concludeGzipRead` passes exactly when the decompressor has no byte left
and ends without error. -/
theorem concludeGzipRead_eq_none_iff (d : Stream) :
    concludeGzipRead d = none ↔ d.data = [] ∧ d.err = none := by
  unfold concludeGzipRead
  cases d.err with
  | some e => simp
  | none => cases d.data <;> simp

/-- C4.  When the decompressor still has bytes after `read` of the archive codec returned,
`Verify` returns an error and no metadata, `Read` returns an error and neither file nor
metadata, and `Restore` returns an error and has not called the engine; and
`concludeGzipRead` returns nil exactly when draining the decompressor yields no byte and
no error. -/
theorem residue_is_rejected (env : Env) (inp : Stream) (w : World) (decomp : Stream)
    (hz : gzipNewReader env.gz inp = .ok decomp) :
    ((env.archive.read decomp none).rest.data ≠ [] →
      ∃ e, Verify env inp = (none, some e)) ∧
    ((env.archive.read decomp env.faults.write).rest.data ≠ [] →
      (∃ e, (Read env inp w).1 = (none, none, some e)) ∧
      (∃ e, (Restore env inp w).1 = some e) ∧
      (Restore env inp w).2.restores = w.restores) ∧
    (∀ d : Stream, concludeGzipRead d = none ↔ d.data = [] ∧ d.err = none) := by
  refine ⟨?_, ?_, concludeGzipRead_eq_none_iff⟩
  · intro hres
    have hc : concludeGzipRead (env.archive.read decomp none).rest ≠ none := by
      rw [Ne, concludeGzipRead_eq_none_iff]
      exact fun h => hres h.1
    unfold Verify
    simp only [hz]
    cases hr : (env.archive.read decomp none).result with
    | error e => exact ⟨_, rfl⟩
    | ok meta =>
      cases hg : concludeGzipRead (env.archive.read decomp none).rest with
      | none => exact absurd hg hc
      | some e => exact ⟨_, rfl⟩
  · intro hres
    have hread : ∃ e, (Read env inp w).1 = (none, none, some e) := by
      rcases Read_shape env inp w with ⟨f, m, hs⟩ | h
      · exfalso
        have h : Read env inp w = ((some f, some m, none), (Read env inp w).2) := by
          rw [← hs]
        obtain ⟨d2, meta, hz2, -, hc, -⟩ := Read_ok_inv env inp w _ _ _ h
        rw [hz] at hz2
        cases hz2
        rw [concludeGzipRead_eq_none_iff] at hc
        exact hres hc.1
      · exact h
    obtain ⟨e, he⟩ := hread
    refine ⟨⟨e, he⟩, ⟨e, ?_⟩, ?_⟩
    · rw [Restore_of_Read_err env inp w e he]
    · rw [Restore_of_Read_err env inp w e he]
      exact Read_restores env inp w

/-! ## Handles -/

/-- What a successful `New` has done. -/
theorem New_ok_inv (env : Env) (w : World) (h : (New env w).1.2 = none) :
    ∃ metadata snap,
      env.raft.snapshotErr = none ∧ env.raft.openSnapshot = .ok (metadata, snap) ∧
      env.faults.createTemp = none ∧
      (env.archive.write metadata snap env.faults.write).err = none ∧
      (New env w).1.1 = some ⟨⟨freshName w.files⟩, metadata.Index⟩ ∧
      (New env w).2.files = (freshName w.files,
        ⟨env.gz.compress (env.archive.write metadata snap env.faults.write).plain, 0, true,
          true⟩) :: w.files := by
  unfold New at h ⊢
  cases hs : env.raft.snapshotErr with
  | some e => simp [hs] at h
  | none =>
    cases ho : env.raft.openSnapshot with
    | error e => simp [hs, ho] at h
    | ok ms =>
      obtain ⟨metadata, snap⟩ := ms
      refine ⟨metadata, snap, rfl, rfl, ?_⟩
      simp only [hs, ho, New.scratch, osCreateTemp, New.fill, fileStore, fileSync,
        fileSeekStart, osRemove, World.fileOpen, World.fileExists, lookupFile,
        updateFile, if_true] at h ⊢
      cases hc : env.faults.createTemp <;>
      cases hw : (env.archive.write metadata snap env.faults.write).err <;>
      cases hg : env.faults.gzipClose <;>
      cases hy : env.faults.sync <;>
      cases hk : env.faults.seek <;>
      simp [hc, hw, hg, hy, hk, lookupFile, updateFile] at h ⊢

/-- The system calls of a successful `New` went through. -/
theorem New_ok_faults (env : Env) (w : World) (h : (New env w).1.2 = none) :
    env.faults.createTemp = none ∧ env.faults.gzipClose = none ∧ env.faults.sync = none ∧
      env.faults.seek = none := by
  unfold New at h
  cases hs : env.raft.snapshotErr with
  | some e => simp [hs] at h
  | none =>
    cases ho : env.raft.openSnapshot with
    | error e => simp [hs, ho] at h
    | ok ms =>
      obtain ⟨metadata, snap⟩ := ms
      simp only [hs, ho, New.scratch, osCreateTemp, New.fill, fileStore, fileSync,
        fileSeekStart, osRemove, World.fileOpen, World.fileExists, lookupFile,
        updateFile, if_true] at h
      cases hc : env.faults.createTemp <;>
      cases hw : (env.archive.write metadata snap env.faults.write).err <;>
      cases hg : env.faults.gzipClose <;>
      cases hy : env.faults.sync <;>
      cases hk : env.faults.seek <;>
      simp [hc, hw, hg, hy, hk, lookupFile, updateFile] at h ⊢

/-- One `Read` through a handle on an open file with bytes ahead, into a buffer that is
not empty. -/
theorem stream_step (s : Snapshot) (p : List UInt8) (w : World) (st : FileState)
    (hl : lookupFile s.file.name w.files = some st) (ho : st.isOpen = true)
    (hp : p.length ≠ 0) (ha : (st.data.drop st.pos).length ≠ 0) :
    Snapshot.Read (some s) noFaults p w =
      ((min p.length (st.data.drop st.pos).length, none,
        (st.data.drop st.pos).take (min p.length (st.data.drop st.pos).length) ++
          p.drop (min p.length (st.data.drop st.pos).length)),
        { w with files := (updateFile s.file.name
            (fun x => { x with pos := x.pos + min p.length (st.data.drop st.pos).length })
            w.files) }) := by
  simp only [Snapshot.Read, noFaults, fileRead, World.fileOpen, World.readable, hl, ho, if_true,
    hp, if_false, ha]

/-- Streaming a handle out delivers every byte from the offset of its file on, and ends
without error, whatever the size of the buffer. -/
theorem stream_all (s : Snapshot) (bufLen : Nat) (hb : 0 < bufLen) :
    ∀ (fuel : Nat) (w : World), w.fileOpen s.file.name = true →
      (w.readable s.file.name).length < fuel →
      (Snapshot.stream (some s) bufLen fuel w).1 = w.readable s.file.name ∧
      (Snapshot.stream (some s) bufLen fuel w).2.1 = none := by
  intro fuel
  induction fuel with
  | zero => intro w _ hlt; omega
  | succ fuel ih =>
    intro w ho hlt
    unfold World.fileOpen at ho
    cases hl : lookupFile s.file.name w.files with
    | none => simp [hl] at ho
    | some st =>
      simp only [hl] at ho
      have hrd : w.readable s.file.name = st.data.drop st.pos := by
        simp [World.readable, hl, ho]
      rw [hrd] at hlt ⊢
      by_cases ha : (st.data.drop st.pos).length = 0
      · have hnil : st.data.drop st.pos = [] := List.length_eq_zero.mp ha
        have hread : Snapshot.Read (some s) noFaults (List.replicate bufLen 0) w =
            ((0, some "EOF", List.replicate bufLen 0), w) := by
          have hp : bufLen ≠ 0 := by omega
          simp [Snapshot.Read, noFaults, fileRead, World.fileOpen, World.readable, hl, ho, hp,
            hnil]
        simp only [Snapshot.stream, hread]
        simp [hnil]
      · have hp : (List.replicate bufLen (0 : UInt8)).length ≠ 0 := by
          simp; omega
        have hread := stream_step s (List.replicate bufLen 0) w st hl ho hp ha
        simp only [Snapshot.stream, hread]
        set n := min (List.replicate bufLen (0 : UInt8)).length (st.data.drop st.pos).length
          with hn
        have hn1 : 0 < n := by
          simp only [List.length_replicate] at hn
          omega
        have hn2 : n ≤ (st.data.drop st.pos).length := by omega
        set w1 : World := { w with files := (updateFile s.file.name
            (fun x => { x with pos := x.pos + n }) w.files) } with hw1
        have hl1 : lookupFile s.file.name w1.files = some { st with pos := st.pos + n } := by
          simp [hw1, lookupFile_updateFile, hl]
        have ho1 : w1.fileOpen s.file.name = true := by
          simp [World.fileOpen, hl1, ho]
        have hrd1 : w1.readable s.file.name = (st.data.drop st.pos).drop n := by
          simp [World.readable, hl1, ho, List.drop_drop, Nat.add_comm]
        have hlt1 : (w1.readable s.file.name).length < fuel := by
          rw [hrd1, List.length_drop]
          omega
        obtain ⟨h1, h2⟩ := ih w1 ho1 hlt1
        refine ⟨?_, h2⟩
        simp only [h1, hrd1]
        rw [List.take_append_of_le_length (by rw [List.length_take]; omega)]
        simp [List.take_take]

/-- Streaming the handle of a successful `New` delivers the compressed archive. -/
theorem New_ok_stream (env : Env) (w : World) (hN : (New env w).1.2 = none)
    (bufLen : Nat) (hb : 0 < bufLen) :
    ∃ metadata snap,
      env.raft.openSnapshot = .ok (metadata, snap) ∧
      (New env w).1.1 = some ⟨⟨freshName w.files⟩, metadata.Index⟩ ∧
      (New env w).2.fileData (freshName w.files) =
        env.gz.compress (env.archive.write metadata snap env.faults.write).plain ∧
      (Snapshot.stream (some ⟨⟨freshName w.files⟩, metadata.Index⟩) bufLen
        (((New env w).2.fileData (freshName w.files)).length + 1) (New env w).2).1 =
        env.gz.compress (env.archive.write metadata snap env.faults.write).plain := by
  obtain ⟨metadata, snap, -, ho, -, -, hh, hfiles⟩ := New_ok_inv env w hN
  have hdata : (New env w).2.fileData (freshName w.files) =
      env.gz.compress (env.archive.write metadata snap env.faults.write).plain := by
    simp [World.fileData, hfiles, lookupFile]
  have hopen : (New env w).2.fileOpen (freshName w.files) = true := by
    simp [World.fileOpen, hfiles, lookupFile]
  have hrd : (New env w).2.readable (freshName w.files) =
      (New env w).2.fileData (freshName w.files) := by
    simp [World.readable, World.fileData, hfiles, lookupFile]
  have hs := stream_all ⟨⟨freshName w.files⟩, metadata.Index⟩ bufLen hb
    (((New env w).2.fileData (freshName w.files)).length + 1) (New env w).2 hopen
    (by rw [hrd]; omega)
  rw [hrd] at hs
  exact ⟨metadata, snap, ho, hh, hdata, hs.1.trans hdata⟩

/-- C7.  On a nil handle `Index` returns 0, `Read` returns 0 bytes and `io.EOF` and leaves
the buffer as it was, and `Close` returns nil; neither touches the temp directory. -/
theorem nil_handle_is_safe (p : List UInt8) (faults : Faults) (w : World) :
    Snapshot.Index none = 0 ∧
    Snapshot.Read none faults p w = ((0, some "EOF", p), w) ∧
    Snapshot.Close none faults w = (none, w) :=
  ⟨rfl, rfl, rfl⟩

/-- C6.  After a successful `New` the handle it returns has the index of the metadata the
engine opened, and its file stands open at offset zero, so that streaming the handle
delivers the archive from its first byte to its last. -/
theorem New_handle_index_and_offset (env : Env) (w : World)
    (hN : (New env w).1.2 = none) :
    ∃ h metadata snap,
      (New env w).1.1 = some h ∧ env.raft.openSnapshot = .ok (metadata, snap) ∧
      Snapshot.Index (some h) = metadata.Index ∧
      (New env w).2.fileOpen h.file.name = true ∧
      (New env w).2.filePos h.file.name = 0 ∧
      (New env w).2.fileData h.file.name =
        env.gz.compress (env.archive.write metadata snap env.faults.write).plain ∧
      ∀ bufLen, 0 < bufLen →
        (Snapshot.stream (some h) bufLen
          (((New env w).2.fileData h.file.name).length + 1) (New env w).2).1 =
          (New env w).2.fileData h.file.name := by
  obtain ⟨metadata, snap, -, ho, -, -, hh, hfiles⟩ := New_ok_inv env w hN
  refine ⟨_, metadata, snap, hh, ho, rfl, ?_, ?_, ?_, ?_⟩
  · simp [World.fileOpen, hfiles, lookupFile]
  · simp [World.filePos, hfiles, lookupFile]
  · simp [World.fileData, hfiles, lookupFile]
  · intro bufLen hb
    obtain ⟨m2, s2, ho2, -, hd2, hs2⟩ := New_ok_stream env w hN bufLen hb
    have hms := ho.symm.trans ho2
    injection hms with hms
    obtain ⟨hm, hsn⟩ := Prod.mk.inj hms
    subst hm hsn
    exact hs2.trans hd2.symm

/-- C8 (as amended).  After a successful `New`, the scratch file of the handle is there,
and a `Close` of the handle that returns nil has removed it: `Close` returns nil exactly
when closing the file and removing it both went through, and then the file is gone. -/
theorem Close_removes_scratch (env : Env) (w : World) (faults : Faults)
    (hN : (New env w).1.2 = none) :
    ∃ h, (New env w).1.1 = some h ∧
      (New env w).2.fileExists h.file.name = true ∧
      ((Snapshot.Close (some h) faults (New env w).2).1 = none ↔
        faults.fileClose = none ∧ faults.remove = none) ∧
      ((Snapshot.Close (some h) faults (New env w).2).1 = none →
        (Snapshot.Close (some h) faults (New env w).2).2.fileExists h.file.name = false) := by
  obtain ⟨metadata, snap, -, -, -, -, hh, hfiles⟩ := New_ok_inv env w hN
  refine ⟨_, hh, ?_, ?_, ?_⟩
  · simp [World.fileExists, hfiles, lookupFile]
  · cases hc : faults.fileClose <;> cases hr : faults.remove <;>
    simp [Snapshot.Close, fileClose, osRemove, World.fileOpen, World.fileExists, hfiles,
      lookupFile, updateFile, hc, hr]
  · cases hc : faults.fileClose <;> cases hr : faults.remove <;>
    simp [Snapshot.Close, fileClose, osRemove, World.fileOpen, World.fileExists, hfiles,
      lookupFile, updateFile, hc, hr]

/-! ## Verify -/

/-- C10.  On an input of no bytes `Verify` fails where it creates the decompressor: it
returns no metadata and the error "failed to decompress snapshot: EOF", whatever the
archive codec would do, and that error is neither an archive-read error nor the residue
error. -/
theorem Verify_empty_input (env : Env) :
    gzipNewReader env.gz ⟨[], none⟩ = .error "EOF" ∧
    Verify env ⟨[], none⟩ = (none, some "failed to decompress snapshot: EOF") ∧
    (∀ e : String,
      "failed to decompress snapshot: EOF" ≠ "failed to read snapshot file: " ++ e) ∧
    (∀ n : Nat,
      "failed to decompress snapshot: EOF" ≠
        Nat.repr n ++ " unread uncompressed bytes remain") := by
  refine ⟨rfl, rfl, ?_, ?_⟩
  · intro e h
    have := congrArg String.data h
    simp [String.data_append] at this
  · intro n h
    have := congrArg (fun s => s.data.reverse) h
    simp [String.data_append] at this

/-! ## The round trip -/

theorem range_eight : List.range 8 = [0,1,2,3,4,5,6,7] := by decide

theorem u64le_length (n : Nat) : (u64le n).length = 8 := by simp [u64le]

theorem toNat_ofNat8 (k : Nat) : (UInt8.ofNat k).toNat = k % 256 := by
  exact UInt8.toNat_ofNat k

theorem leValue_u64le (n : Nat) (h : n < 2 ^ 64) : leValue (u64le n) = n := by
  simp only [u64le, range_eight, List.map, leValue, toNat_ofNat8]
  norm_num
  omega

theorem encodeMeta_length (m : SnapshotMeta) :
    (encodeMeta m).length = m.Configuration.length + 25 := by
  simp only [encodeMeta, List.length_append, List.length_cons, u64le_length]
  omega

theorem drop_two (a b r : List UInt8) (ha : a.length = 8) (hb : b.length = 8) :
    (a ++ (b ++ r)).drop 16 = r := by
  rw [← List.append_assoc]
  exact List.drop_left' (by simp [ha, hb])

theorem drop_three (a b c r : List UInt8) (ha : a.length = 8) (hb : b.length = 8)
    (hc : c.length = 8) : (a ++ (b ++ (c ++ r))).drop 24 = r := by
  rw [← List.append_assoc, ← List.append_assoc]
  exact List.drop_left' (by simp [ha, hb, hc])

theorem decodeMeta_encodeMeta (known : Nat → Bool) (m : SnapshotMeta) (h : m.valid known) :
    decodeMeta known (encodeMeta m) = some m := by
  obtain ⟨hi, ht, hc, hv, hk, -⟩ := h
  have hlen : ¬ (encodeMeta m).length < 25 := by rw [encodeMeta_length]; omega
  have h24 : (encodeMeta m).drop 24 = UInt8.ofNat m.Version :: m.Configuration :=
    drop_three _ _ _ _ (u64le_length _) (u64le_length _) (u64le_length _)
  have h25 : (encodeMeta m).drop 25 = m.Configuration := by
    have : (encodeMeta m).drop 25 = ((encodeMeta m).drop 24).drop 1 := by
      rw [List.drop_drop]
    rw [this, h24]
    rfl
  have h0 : (encodeMeta m).take 8 = u64le m.Index := List.take_left' (u64le_length _)
  have h8 : ((encodeMeta m).drop 8).take 8 = u64le m.Term := by
    unfold encodeMeta
    rw [List.drop_left' (u64le_length _)]
    exact List.take_left' (u64le_length _)
  have h16 : ((encodeMeta m).drop 16).take 8 = u64le m.ConfigurationIndex := by
    unfold encodeMeta
    rw [drop_two _ _ _ (u64le_length _) (u64le_length _)]
    exact List.take_left' (u64le_length _)
  have hver : (UInt8.ofNat m.Version).toNat = m.Version := by
    rw [toNat_ofNat8]; omega
  unfold decodeMeta
  simp only [hlen, if_false, h24, h25, h0, h8, h16, List.headD_cons, hver, hk, if_true,
    leValue_u64le _ hi, leValue_u64le _ ht, leValue_u64le _ hc]

theorem specArchive_read (known : Nat → Bool) : (specArchive known).read = specRead known :=
  rfl

theorem specArchive_write (known : Nat → Bool) : (specArchive known).write = specWrite :=
  rfl

/-- The codec of the specification reads back what it wrote. -/
theorem specRead_specWrite (known : Nat → Bool) (m : SnapshotMeta) (st : List UInt8)
    (h : m.valid known) :
    specRead known ⟨(specWrite m ⟨st, none⟩ none).plain, none⟩ none =
      ⟨st, ⟨[], none⟩, .ok m⟩ := by
  have hl : (encodeMeta m).length < 2 ^ 64 := by
    obtain ⟨-, -, -, -, -, hl⟩ := h
    rw [encodeMeta_length]
    omega
  have hplain : (specWrite m ⟨st, none⟩ none).plain =
      u64le (encodeMeta m).length ++ (encodeMeta m ++ st) := by
    simp [specWrite]
  rw [hplain]
  have h8 : ¬ (u64le (encodeMeta m).length ++ (encodeMeta m ++ st)).length < 8 := by
    simp [u64le_length]
  have htake : (u64le (encodeMeta m).length ++ (encodeMeta m ++ st)).take 8 =
      u64le (encodeMeta m).length := List.take_left' (u64le_length _)
  have hdrop : (u64le (encodeMeta m).length ++ (encodeMeta m ++ st)).drop 8 =
      encodeMeta m ++ st := List.drop_left' (u64le_length _)
  have hb : ¬ (encodeMeta m ++ st).length < (encodeMeta m).length := by
    simp
  have ht2 : (encodeMeta m ++ st).take (encodeMeta m).length = encodeMeta m :=
    List.take_left' rfl
  have hd2 : (encodeMeta m ++ st).drop (encodeMeta m).length = st :=
    List.drop_left' rfl
  unfold specRead
  dsimp only
  rw [if_neg h8, htake, hdrop, leValue_u64le _ hl, if_neg hb, ht2, hd2,
    decodeMeta_encodeMeta known m h]

/-- A `Read` whose steps all succeed. -/
theorem Read_ok_intro (env : Env) (inp decomp : Stream) (w : World) (m : SnapshotMeta)
    (hz : gzipNewReader env.gz inp = .ok decomp)
    (hc : env.faults.createTemp = none)
    (hr : (env.archive.read decomp env.faults.write).result = .ok m)
    (hg : concludeGzipRead (env.archive.read decomp env.faults.write).rest = none)
    (hy : env.faults.sync = none) (hk : env.faults.seek = none) :
    (Read env inp w).1 = (some ⟨freshName w.files⟩, some m, none) ∧
    (Read env inp w).2.files = (freshName w.files,
      ⟨(env.archive.read decomp env.faults.write).written, 0, true, true⟩) :: w.files := by
  simp [Read, hz, Read.fill, osCreateTemp, hc, hr, hg, fileStore, fileSync, hy,
    fileSeekStart, hk, World.fileOpen, lookupFile, updateFile]

/-- The round trip with the two runs in environments of their own: when `New` succeeds on
an engine whose capture yields `M` and `S`, a `Read` of the bytes streamed from the handle
whose own file calls go through returns `M` and a scratch file holding `S`. -/
theorem round_trip_two_runs (gz : Gzip) (known : Nat → Bool) (raft : Raft)
    (faults faults2 : Faults) (w w2 : World) (M : SnapshotMeta) (S : List UInt8)
    (bufLen : Nat) (hb : 0 < bufLen)
    (hgz : gz.lawful) (hM : M.valid known)
    (hcap : raft.openSnapshot = .ok (M, ⟨S, none⟩))
    (hN : (New ⟨gz, specArchive known, raft, faults⟩ w).1.2 = none)
    (hio : faults2.createTemp = none ∧ faults2.write = none ∧ faults2.sync = none ∧
      faults2.seek = none) :
    ∃ h f,
      (New ⟨gz, specArchive known, raft, faults⟩ w).1.1 = some h ∧
      (Read ⟨gz, specArchive known, raft, faults2⟩
        ⟨(Snapshot.stream (some h) bufLen
          (((New ⟨gz, specArchive known, raft, faults⟩ w).2.fileData h.file.name).length + 1)
          (New ⟨gz, specArchive known, raft, faults⟩ w).2).1, none⟩ w2).1 =
        (some f, some M, none) ∧
      (Read ⟨gz, specArchive known, raft, faults2⟩
        ⟨(Snapshot.stream (some h) bufLen
          (((New ⟨gz, specArchive known, raft, faults⟩ w).2.fileData h.file.name).length + 1)
          (New ⟨gz, specArchive known, raft, faults⟩ w).2).1, none⟩ w2).2.filePos f.name = 0 ∧
      (Read ⟨gz, specArchive known, raft, faults2⟩
        ⟨(Snapshot.stream (some h) bufLen
          (((New ⟨gz, specArchive known, raft, faults⟩ w).2.fileData h.file.name).length + 1)
          (New ⟨gz, specArchive known, raft, faults⟩ w).2).1, none⟩ w2).2.readable f.name = S := by
  obtain ⟨metadata, snap, ho, hh, hdata, hstream⟩ :=
    New_ok_stream ⟨gz, specArchive known, raft, faults⟩ w hN bufLen hb
  obtain ⟨hc2, hw2, hy2, hk2⟩ := hio
  have hms : (metadata, snap) = (M, (⟨S, none⟩ : Stream)) := by
    have h1 : raft.openSnapshot = .ok (metadata, snap) := ho
    rw [hcap] at h1
    injection h1 with h2
    exact h2.symm
  obtain ⟨hm1, hm2⟩ := Prod.mk.inj hms
  subst hm1 hm2
  obtain ⟨_, _, -, ho2, -, hwerr, -, -⟩ := New_ok_inv ⟨gz, specArchive known, raft, faults⟩ w hN
  have hms2 := ho.symm.trans ho2
  injection hms2 with hms3
  obtain ⟨hm3, hm4⟩ := Prod.mk.inj hms3
  subst hm3 hm4
  have hfw : faults.write = none := by
    cases hf : faults.write with
    | none => rfl
    | some e =>
      dsimp only at hwerr
      rw [specArchive_write, hf] at hwerr
      simp [specWrite] at hwerr
  refine ⟨_, ⟨freshName w2.files⟩, hh, ?_⟩
  dsimp only at hstream hdata ⊢
  rw [hstream, specArchive_write, hfw]
  have hz := hgz (specWrite metadata ⟨S, none⟩ none).plain
  have hrd := specRead_specWrite known metadata S hM
  obtain ⟨h1, h2⟩ := Read_ok_intro ⟨gz, specArchive known, raft, faults2⟩
    ⟨gz.compress (specWrite metadata ⟨S, none⟩ none).plain, none⟩
    ⟨(specWrite metadata ⟨S, none⟩ none).plain, none⟩ w2 metadata hz hc2
    (by dsimp only; rw [hw2, specArchive_read, hrd])
    (by dsimp only; rw [hw2, specArchive_read, hrd]; rfl) hy2 hk2
  refine ⟨h1, ?_, ?_⟩
  · simp [World.filePos, h2, lookupFile]
  · dsimp only at h2
    rw [hw2, specArchive_read, hrd] at h2
    simp [World.readable, h2, lookupFile]

/-- C5.  Round trip of the take and read paths, over the codec of the specification and a
gzip whose reader inverts its writer.  For all metadata `M` and state bytes `S`: when `New`
succeeds on an engine whose capture yields `M` and `S`, then `Read`, fed the bytes streamed
from the returned handle, returns a nil error, the metadata `M`, and a scratch file that
stands at offset zero and holds exactly `S`. -/
theorem New_then_Read_round_trip (gz : Gzip) (known : Nat → Bool) (raft : Raft)
    (faults : Faults) (w w2 : World) (M : SnapshotMeta) (S : List UInt8)
    (bufLen : Nat) (hb : 0 < bufLen)
    (hgz : gz.lawful) (hM : M.valid known)
    (hcap : raft.openSnapshot = .ok (M, ⟨S, none⟩))
    (hN : (New ⟨gz, specArchive known, raft, faults⟩ w).1.2 = none) :
    ∃ h f,
      (New ⟨gz, specArchive known, raft, faults⟩ w).1.1 = some h ∧
      (Read ⟨gz, specArchive known, raft, faults⟩
        ⟨(Snapshot.stream (some h) bufLen
          (((New ⟨gz, specArchive known, raft, faults⟩ w).2.fileData h.file.name).length + 1)
          (New ⟨gz, specArchive known, raft, faults⟩ w).2).1, none⟩ w2).1 =
        (some f, some M, none) ∧
      (Read ⟨gz, specArchive known, raft, faults⟩
        ⟨(Snapshot.stream (some h) bufLen
          (((New ⟨gz, specArchive known, raft, faults⟩ w).2.fileData h.file.name).length + 1)
          (New ⟨gz, specArchive known, raft, faults⟩ w).2).1, none⟩ w2).2.filePos f.name = 0 ∧
      (Read ⟨gz, specArchive known, raft, faults⟩
        ⟨(Snapshot.stream (some h) bufLen
          (((New ⟨gz, specArchive known, raft, faults⟩ w).2.fileData h.file.name).length + 1)
          (New ⟨gz, specArchive known, raft, faults⟩ w).2).1, none⟩ w2).2.readable f.name = S := by
  obtain ⟨hc, -, hy, hk⟩ := New_ok_faults ⟨gz, specArchive known, raft, faults⟩ w hN
  obtain ⟨metadata, snap, -, ho, -, hwerr, -, -⟩ :=
    New_ok_inv ⟨gz, specArchive known, raft, faults⟩ w hN
  have hfw : faults.write = none := by
    cases hf : faults.write with
    | none => rfl
    | some e =>
      dsimp only at hwerr
      rw [specArchive_write, hf] at hwerr
      simp [specWrite] at hwerr
  exact round_trip_two_runs gz known raft faults faults w w2 M S bufLen hb hgz hM hcap hN
    ⟨hc, hfw, hy, hk⟩

/-! ## Concrete runs -/

/-- C1, a run against the claim as stated: the scratch file is created, the sync fails and
`New` returns a nil handle and an error, but the removal fails too and the scratch file is
still in the directory when `New` has returned. -/
theorem New_scratch_survives_failed_remove :
    (sampleEnv syncAndRemoveFail none).faults.createTemp = none ∧
    New.laterFailure (sampleEnv syncAndRemoveFail none) sampleMeta ⟨[10, 20, 30], none⟩ = true ∧
    (New (sampleEnv syncAndRemoveFail none) emptyWorld).1 =
      (none, some "failed to sync snapshot: input/output error") ∧
    emptyWorld.fileExists 1 = false ∧
    (New (sampleEnv syncAndRemoveFail none) emptyWorld).2.fileExists 1 = true := by
  decide

/-- C1 at a run in which the sync fails and the removal goes through. -/
theorem New_cleans_up_scratch_witness :
    New.laterFailure (sampleEnv syncFails none) sampleMeta ⟨[10, 20, 30], none⟩ = true ∧
    (New (sampleEnv syncFails none) emptyWorld).1.1 = none ∧
    (New (sampleEnv syncFails none) emptyWorld).1.2 ≠ none ∧
    (New (sampleEnv syncFails none) emptyWorld).2.fileExists 1 = false :=
  have h := (New_cleans_up_scratch (sampleEnv syncFails none) emptyWorld sampleMeta
    ⟨[10, 20, 30], none⟩ rfl rfl rfl).1 (by decide)
  ⟨by decide, h.1, h.2.1, h.2.2.1 rfl⟩

/-- C2, the defect at a failing input: on a gzip stream that holds no archive `Read` has
created its scratch file when `read` fails, returns the error alone, and leaves the file
in the directory; `Restore` on the same input returns the error, calls neither the engine
nor `os.Remove`, and the file is still there. -/
theorem Read_failure_leaves_scratch :
    emptyWorld.fileExists 1 = false ∧
    (Read (sampleEnv noFaults none) notAnArchive emptyWorld).1 =
      (none, none, some "failed to read snapshot file: unexpected EOF") ∧
    (Read (sampleEnv noFaults none) notAnArchive emptyWorld).2.fileExists 1 = true ∧
    (Restore (sampleEnv noFaults none) notAnArchive emptyWorld).1 =
      some "failed to read snapshot file: unexpected EOF" ∧
    (Restore (sampleEnv noFaults none) notAnArchive emptyWorld).2.restores = [] ∧
    (Restore (sampleEnv noFaults none) notAnArchive emptyWorld).2.fileExists 1 = true := by
  decide

/-- C3, a run against the claim as stated: the input is decoded, the engine restores and
`Restore` returns nil, but the removal fails and the scratch file is still in the
directory when `Restore` has returned. -/
theorem Restore_scratch_survives_failed_remove :
    (Read (sampleEnv removeFails none) ⟨sampleArchiveBytes, none⟩ emptyWorld).1 =
      (some ⟨1⟩, some sampleMeta, none) ∧
    (Restore (sampleEnv removeFails none) ⟨sampleArchiveBytes, none⟩ emptyWorld).1 = none ∧
    (Restore (sampleEnv removeFails none) ⟨sampleArchiveBytes, none⟩ emptyWorld).2.fileExists 1 =
      true := by
  decide

/-- C3 at a run in which the engine refuses the state and the removal goes through. -/
theorem Restore_closes_and_removes_witness :
    (Restore (sampleEnv noFaults (some "refused")) ⟨sampleArchiveBytes, none⟩ emptyWorld).1 =
      some "Raft error when restoring snapshot: refused" ∧
    (Restore (sampleEnv noFaults (some "refused")) ⟨sampleArchiveBytes, none⟩
      emptyWorld).2.fileOpen 1 = false ∧
    (Restore (sampleEnv noFaults (some "refused")) ⟨sampleArchiveBytes, none⟩
      emptyWorld).2.fileExists 1 = false :=
  have h := Restore_closes_and_removes (sampleEnv noFaults (some "refused"))
    ⟨sampleArchiveBytes, none⟩ emptyWorld
    ⟨[(1, ⟨[10, 20, 30], 0, true, true⟩)], [], []⟩ ⟨1⟩ sampleMeta (by decide)
  ⟨h.1, h.2.1, h.2.2.1 rfl⟩

/-- C4 at an input whose decompressed stream has one byte behind the container. -/
theorem residue_is_rejected_witness :
    (residueEnv.archive.read ⟨[5, 6], none⟩ none).rest.data ≠ [] ∧
    (∃ e, Verify residueEnv ⟨[0x1f, 0x8b, 5, 6], none⟩ = (none, some e)) ∧
    (∃ e, (Restore residueEnv ⟨[0x1f, 0x8b, 5, 6], none⟩ emptyWorld).1 = some e) ∧
    (Restore residueEnv ⟨[0x1f, 0x8b, 5, 6], none⟩ emptyWorld).2.restores = [] :=
  have h := residue_is_rejected residueEnv ⟨[0x1f, 0x8b, 5, 6], none⟩ emptyWorld ⟨[5, 6], none⟩ rfl
  ⟨by decide, h.1 (by decide), (h.2.1 (by decide)).2.1, (h.2.1 (by decide)).2.2⟩

/-- C6 at the example run. -/
theorem New_handle_index_and_offset_witness :
    (New (sampleEnv noFaults none) emptyWorld).1.2 = none ∧
    ∃ h, (New (sampleEnv noFaults none) emptyWorld).1.1 = some h ∧
      Snapshot.Index (some h) = 100 ∧
      (New (sampleEnv noFaults none) emptyWorld).2.filePos h.file.name = 0 :=
  have h := New_handle_index_and_offset (sampleEnv noFaults none) emptyWorld rfl
  ⟨rfl, by
    obtain ⟨hd, metadata, snap, h1, h2, h3, -, h5, -⟩ := h
    refine ⟨hd, h1, ?_, h5⟩
    rw [h3]
    have : metadata = sampleMeta := by
      have h6 : (sampleEnv noFaults none).raft.openSnapshot = .ok (sampleMeta, ⟨[10, 20, 30], none⟩) :=
        rfl
      rw [h6] at h2
      injection h2 with h7
      injection h7 with h8 h9
      exact h8.symm
    rw [this]
    rfl⟩

/-- C8, a run against the claim as stated: `New` succeeds, `Close` is called on the handle,
the file is closed but `os.Remove` fails, `Close` returns that error, and the scratch file
is still in the directory. -/
theorem Close_leaves_scratch_when_remove_fails :
    (New (sampleEnv noFaults none) emptyWorld).1 = (some ⟨⟨1⟩, 100⟩, none) ∧
    (Snapshot.Close (some ⟨⟨1⟩, 100⟩) removeFails
      (New (sampleEnv noFaults none) emptyWorld).2).1 = some "operation not permitted" ∧
    (Snapshot.Close (some ⟨⟨1⟩, 100⟩) removeFails
      (New (sampleEnv noFaults none) emptyWorld).2).2.fileExists 1 = true := by
  decide

/-- C8 at the example run, with a `Close` whose calls go through. -/
theorem Close_removes_scratch_witness :
    (New (sampleEnv noFaults none) emptyWorld).1.2 = none ∧
    ∃ h, (New (sampleEnv noFaults none) emptyWorld).1.1 = some h ∧
      (Snapshot.Close (some h) noFaults (New (sampleEnv noFaults none) emptyWorld).2).1 = none ∧
      (Snapshot.Close (some h) noFaults
        (New (sampleEnv noFaults none) emptyWorld).2).2.fileExists h.file.name = false :=
  have h := Close_removes_scratch (sampleEnv noFaults none) emptyWorld noFaults rfl
  ⟨rfl, by
    obtain ⟨hd, h1, -, h3, h4⟩ := h
    exact ⟨hd, h1, h3.mpr ⟨rfl, rfl⟩, h4 (h3.mpr ⟨rfl, rfl⟩)⟩⟩

/-- C9 at the example run: `Read` succeeds and the engine receives one call. -/
theorem Restore_engine_calls_witness :
    (Read (sampleEnv noFaults none) ⟨sampleArchiveBytes, none⟩ emptyWorld).1.2.2 = none ∧
    ∃ decomp meta,
      gzipNewReader storedGzip ⟨sampleArchiveBytes, none⟩ = .ok decomp ∧
      specRead (fun v => decide (v ≤ 1)) decomp none = ⟨[10, 20, 30], ⟨[], none⟩, .ok meta⟩ ∧
      (Restore (sampleEnv noFaults none) ⟨sampleArchiveBytes, none⟩ emptyWorld).2.restores =
        [⟨some meta, some ⟨1⟩, 0, [10, 20, 30], 0⟩] :=
  ⟨by decide, by
    obtain ⟨decomp, meta, h1, h2, h3⟩ := (Restore_engine_calls (sampleEnv noFaults none)
      ⟨sampleArchiveBytes, none⟩ emptyWorld).1 (by decide)
    have hd : decomp = ⟨sampleArchiveBytes.drop 2, none⟩ := by
      have h0 : gzipNewReader storedGzip ⟨sampleArchiveBytes, none⟩ =
          .ok ⟨sampleArchiveBytes.drop 2, none⟩ := rfl
      have h4 := h0.symm.trans h1
      injection h4 with h5
      exact h5.symm
    subst hd
    have hr : specRead (fun v => decide (v ≤ 1)) ⟨sampleArchiveBytes.drop 2, none⟩ none =
        ⟨[10, 20, 30], ⟨[], none⟩, .ok sampleMeta⟩ := rfl
    have hm : meta = sampleMeta := by
      have h6 : (specRead (fun v => decide (v ≤ 1)) ⟨sampleArchiveBytes.drop 2, none⟩ none).result =
          .ok meta := h2
      rw [hr] at h6
      injection h6 with h7
      exact h7.symm
    subst hm
    refine ⟨_, _, h1, hr, ?_⟩
    have hw : (specRead (fun v => decide (v ≤ 1)) ⟨sampleArchiveBytes.drop 2, none⟩ none).written =
        [10, 20, 30] := by rw [hr]
    rw [← hw]
    exact h3⟩

/-- The stand-in for gzip has a reader that inverts its writer. -/
theorem storedGzip_lawful : storedGzip.lawful := by
  intro b
  rfl

/-- C5 at the example run: metadata with index 100 and term 3 over three state bytes,
streamed through a buffer of four bytes. -/
theorem New_then_Read_round_trip_witness :
    (New (sampleEnv noFaults none) emptyWorld).1.2 = none ∧
    ∃ h f,
      (New (sampleEnv noFaults none) emptyWorld).1.1 = some h ∧
      (Read (sampleEnv noFaults none)
        ⟨(Snapshot.stream (some h) 4
          (((New (sampleEnv noFaults none) emptyWorld).2.fileData h.file.name).length + 1)
          (New (sampleEnv noFaults none) emptyWorld).2).1, none⟩ emptyWorld).1 =
        (some f, some sampleMeta, none) ∧
      (Read (sampleEnv noFaults none)
        ⟨(Snapshot.stream (some h) 4
          (((New (sampleEnv noFaults none) emptyWorld).2.fileData h.file.name).length + 1)
          (New (sampleEnv noFaults none) emptyWorld).2).1, none⟩ emptyWorld).2.filePos f.name = 0 ∧
      (Read (sampleEnv noFaults none)
        ⟨(Snapshot.stream (some h) 4
          (((New (sampleEnv noFaults none) emptyWorld).2.fileData h.file.name).length + 1)
          (New (sampleEnv noFaults none) emptyWorld).2).1, none⟩ emptyWorld).2.readable f.name =
        [10, 20, 30] :=
  ⟨rfl, New_then_Read_round_trip storedGzip (fun v => decide (v ≤ 1))
    (sampleRaft sampleMeta [10, 20, 30] none) noFaults emptyWorld emptyWorld sampleMeta
    [10, 20, 30] 4 (by decide) storedGzip_lawful
    (by simp [SnapshotMeta.valid, sampleMeta]) rfl rfl⟩

/-- Once `Read` has created its scratch file, whatever step fails afterwards, the file is
still in the directory when `Read` returns its error, and still there when `Restore` has
returned. -/
theorem Read_error_leaves_scratch (env : Env) (inp decomp : Stream) (w : World)
    (hz : gzipNewReader env.gz inp = .ok decomp) (hc : env.faults.createTemp = none)
    (he : (Read env inp w).1.2.2 ≠ none) :
    (Read env inp w).2.fileExists (freshName w.files) = true ∧
    (Restore env inp w).2.fileExists (freshName w.files) = true := by
  have h1 : (Read env inp w).2.fileExists (freshName w.files) = true := by
    simp only [Read, hz, Read.fill, osCreateTemp, hc, fileStore, fileSync, fileSeekStart,
      World.fileOpen, lookupFile, updateFile, if_true]
    cases hr : (env.archive.read decomp env.faults.write).result <;>
    cases hg : concludeGzipRead (env.archive.read decomp env.faults.write).rest <;>
    cases hy : env.faults.sync <;>
    cases hk : env.faults.seek <;>
    simp [World.fileExists, lookupFile, updateFile]
  refine ⟨h1, ?_⟩
  rcases Read_shape env inp w with ⟨f, m, hs⟩ | ⟨e, hs⟩
  · rw [hs] at he
    exact absurd rfl he
  · rw [Restore_of_Read_err env inp w e hs]
    exact h1

end snapshot
